import Mathlib

/-!
Verification of the lithium 2D collision engine.

Shallow embedding of `lithium-engine`: the geometry and collision pipeline of
`src/ecs/systems/collisions.rs`, the component structures of
`src/ecs/components.rs`, and the `SparseSet` component store of `src/ecs.rs`.

Numeric model: the engine computes with `f32`; we embed scalars as exact
rationals (`ℚ`), mapping each `f32` operation to the corresponding exact
operation and `f32::sqrt` to `Rat.sqrt` (exact on perfect squares, which covers
every square root evaluated by the theorems below).  `f32::mul_add` is mapped
to the exact `x * a + b`.  Rust panics (`panic!`, `expect`, `unimplemented!`,
out-of-bounds indexing that the program never reaches) are modelled by
`Option`/dedicated result constructors: `none` means the program aborts.
-/

namespace Lithium

/-- `EPS` from `src/ecs/systems/physics.rs`. -/
def EPS : ℚ := 1/1000000

/-- `EPS_SQR` from `src/ecs/systems/physics.rs`. -/
def EPS_SQR : ℚ := EPS * EPS

/-- `pow2` from `src/ecs/systems/physics.rs`. -/
def pow2 (x : ℚ) : ℚ := x * x

/-- `components::Vec2`. -/
structure Vec2 where
  x : ℚ
  y : ℚ
deriving DecidableEq, Repr

namespace Vec2

/-- `Vec2::new`. -/
def new (x y : ℚ) : Vec2 := ⟨x, y⟩

/-- `Vec2::add`. -/
def add (v w : Vec2) : Vec2 := ⟨v.x + w.x, v.y + w.y⟩

/-- `Vec2::add_scalar`. -/
def add_scalar (v : Vec2) (x y : ℚ) : Vec2 := ⟨v.x + x, v.y + y⟩

/-- `Vec2::sub`. -/
def sub (v w : Vec2) : Vec2 := ⟨v.x - w.x, v.y - w.y⟩

/-- `Vec2::scale`. -/
def scale (v : Vec2) (s : ℚ) : Vec2 := ⟨v.x * s, v.y * s⟩

/-- `Vec2::neg`. -/
def neg (v : Vec2) : Vec2 := ⟨-v.x, -v.y⟩

/-- `Vec2::perp_ccw`. -/
def perp_ccw (v : Vec2) : Vec2 := ⟨-v.y, v.x⟩

/-- `Vec2::dot`; the source computes `x.mul_add(w.x, y * w.y)`, which is the
exact `x * w.x + y * w.y` in our arithmetic model. -/
def dot (v w : Vec2) : ℚ := v.x * w.x + v.y * w.y

/-- `Vec2::cross`. -/
def cross (v w : Vec2) : ℚ := v.x * w.y - v.y * w.x

/-- `Vec2::signed_area`. -/
def signed_area (p q r : Vec2) : ℚ := (q.sub p).cross (r.sub p)

/-- `Vec2::square_dist`. -/
def square_dist (v p : Vec2) : ℚ := pow2 (p.x - v.x) + pow2 (p.y - v.y)

/-- `Vec2::square_mag`. -/
def square_mag (v : Vec2) : ℚ := pow2 v.x + pow2 v.y

/-- `Vec2::mag` (`sqrt` of the squared magnitude). -/
def mag (v : Vec2) : ℚ := Rat.sqrt v.square_mag

/-- `Vec2::norm` (divides both coordinates by the magnitude). -/
def norm (v : Vec2) : Vec2 := ⟨v.x / v.mag, v.y / v.mag⟩

end Vec2

/-- `components::HitBox`. -/
structure HitBox where
  min_x : ℚ
  min_y : ℚ
  max_x : ℚ
  max_y : ℚ
deriving DecidableEq, Repr

/-- `HitBox::add_pos`. -/
def HitBox.add_pos (h : HitBox) (pos : Vec2) : HitBox :=
  ⟨h.min_x + pos.x, h.min_y + pos.y, h.max_x + pos.x, h.max_y + pos.y⟩

/-- `components::Segment` (local coordinates). -/
structure Segment where
  a : Vec2
  b : Vec2
deriving DecidableEq, Repr

/-- `components::Triangle` (local coordinates). -/
structure Triangle where
  a : Vec2
  b : Vec2
  c : Vec2
deriving DecidableEq, Repr

/-- `components::Rect`. -/
structure Rect where
  width : ℚ
  height : ℚ
deriving DecidableEq, Repr

/-- `Rect::new` panics on non-positive dimensions; `none` models the panic. -/
def Rect.new (width height : ℚ) : Option Rect :=
  if width ≤ 0 then none
  else if height ≤ 0 then none
  else some ⟨width, height⟩

/-- `components::Circle`. -/
structure Circle where
  radius : ℚ
deriving DecidableEq, Repr

/-- `components::Polygon` (local coordinates, counter-clockwise convex). -/
structure Polygon where
  verts : List Vec2
deriving DecidableEq, Repr

/-- `components::Shape`. -/
inductive Shape where
  | segment (s : Segment)
  | triangle (t : Triangle)
  | rect (r : Rect)
  | circle (c : Circle)
  | polygon (p : Polygon)
deriving DecidableEq, Repr

/-- `Segment::hitbox`. -/
def Segment.hitbox (s : Segment) : HitBox :=
  ⟨min s.a.x s.b.x, min s.a.y s.b.y, max s.a.x s.b.x, max s.a.y s.b.y⟩

/-- `Triangle::hitbox`. -/
def Triangle.hitbox (t : Triangle) : HitBox :=
  ⟨min t.a.x (min t.b.x t.c.x), min t.a.y (min t.b.y t.c.y),
   max t.a.x (max t.b.x t.c.x), max t.a.y (max t.b.y t.c.y)⟩

/-- `Rect::hitbox`. -/
def Rect.hitbox (r : Rect) : HitBox := ⟨0, 0, r.width, r.height⟩

/-- `Circle::hitbox`. -/
def Circle.hitbox (c : Circle) : HitBox := ⟨0, 0, c.radius * 2, c.radius * 2⟩

/-- Minimum of the mapped list; the source folds from `f32::MAX`, which agrees
with folding from the head on every non-empty list.  The `[]` default is
unreachable for shapes the program builds (polygons are validated to have at
least 4 vertices). -/
def foldMin (f : Vec2 → ℚ) : List Vec2 → ℚ
  | [] => 0
  | v :: vs => vs.foldl (fun acc w => min acc (f w)) (f v)

/-- Maximum counterpart of `foldMin`; source folds from `f32::MIN`. -/
def foldMax (f : Vec2 → ℚ) : List Vec2 → ℚ
  | [] => 0
  | v :: vs => vs.foldl (fun acc w => max acc (f w)) (f v)

/-- `Polygon::hitbox`. -/
def Polygon.hitbox (p : Polygon) : HitBox :=
  ⟨foldMin (fun v => v.x) p.verts, foldMin (fun v => v.y) p.verts,
   foldMax (fun v => v.x) p.verts, foldMax (fun v => v.y) p.verts⟩

/-- `Shape::hitbox`. -/
def Shape.hitbox : Shape → HitBox
  | .segment s => s.hitbox
  | .triangle t => t.hitbox
  | .rect r => r.hitbox
  | .circle c => c.hitbox
  | .polygon p => p.hitbox

/-- `error::GeometryError`. -/
inductive GeometryError where
  | tooFewVertices (n : Nat)
  | duplicateVertices
  | notConvex
deriving DecidableEq, Repr

/-- `error::ComponentError`. -/
inductive ComponentError where
  | missingComponent (e : Nat)
  | alreadyExistingComponent (e : Nat)
deriving DecidableEq, Repr

/-- The duplicate-vertex double loop of `Polygon::is_valid`
(`src/ecs/components.rs`): no pair of vertices with
`|Δx| < EPS ∧ |Δy| < EPS`. -/
def noDupVerts : List Vec2 → Bool
  | [] => true
  | v :: vs =>
    vs.all (fun w => !(decide (|v.x - w.x| < EPS) && decide (|v.y - w.y| < EPS))) &&
      noDupVerts vs

/-- The convexity loop of `Polygon::is_valid`: every consecutive vertex triple
(indices taken modulo the length) turns strictly counter-clockwise,
`cross > EPS`. -/
def convexOk (verts : List Vec2) : Bool :=
  (List.range verts.length).all (fun i =>
    decide (EPS <
      ((verts.getD ((i + 1) % verts.length) ⟨0, 0⟩).sub (verts.getD i ⟨0, 0⟩)).cross
        ((verts.getD ((i + 2) % verts.length) ⟨0, 0⟩).sub
          (verts.getD ((i + 1) % verts.length) ⟨0, 0⟩))))

/-- The checks of `Polygon::is_valid`: at least 4 vertices (3 or fewer panic:
`< 3` is rejected and exactly 3 is rejected with "use Shape::Triangle"),
no near-duplicate pair, strict counter-clockwise convexity.  `is_valid` panics
instead of returning `false`; `false` here records that it panics. -/
def polygonChecks (verts : List Vec2) : Bool :=
  decide (4 ≤ verts.length) && noDupVerts verts && convexOk verts

/-- `Polygon::new`: panics (`none`) when `is_valid` panics. -/
def Polygon.new (verts : List Vec2) : Option Polygon :=
  if polygonChecks verts then some ⟨verts⟩ else none

/-- `components::SweptShape`.  The Rust type borrows the original shape in the
`Unmoved` case; the embedding stores it by value. -/
inductive SweptShape where
  | unmoved (shape : Shape) (pos : Vec2)
  | axisRect (swept : Rect) (pos : Vec2)
  | moved (swept : Polygon)
deriving DecidableEq, Repr

/-- `SweptShape::hitbox` (`impl ToHitBox for SweptShape`). -/
def SweptShape.hitbox : SweptShape → HitBox
  | .unmoved shape pos => shape.hitbox.add_pos pos
  | .axisRect swept pos => swept.hitbox.add_pos pos
  | .moved swept => swept.hitbox

/-- Entities are opaque unsigned integers (`entities::Entity`, `u32` used only
as an index; no arithmetic overflows it in this subsystem). -/
abbrev Entity := Nat

/-- `SparseSet<T>` from `src/ecs.rs`: dense component and entity arrays plus a
sparse index table. -/
structure SparseSet (T : Type) where
  components : List T
  entities : List Entity
  sparse : List (Option Nat)
deriving Repr

namespace SparseSet

/-- `SparseSet::new`. -/
def new (T : Type) : SparseSet T := ⟨[], [], []⟩

/-- `SparseSet::get`: `self.sparse.get(sparse_id)?.map(|index| &self.components[index])`.
The `components[index]` access is in bounds for every store the API builds;
an out-of-range index (unreachable) yields `none` here where Rust would panic. -/
def get (s : SparseSet T) (entity : Entity) : Option T :=
  match s.sparse.getD entity none with
  | some index => s.components.get? index
  | none => none

/-- `SparseSet::insert`, returning the updated store (`&mut self` in Rust)
together with the error, if any.  Mirrors the source order: resize the sparse
table, check for an existing component, then push. -/
def insert (s : SparseSet T) (entity : Entity) (component : T) :
    SparseSet T × Option ComponentError :=
  let index := s.components.length
  let sparse :=
    if s.sparse.length ≤ entity then
      s.sparse ++ List.replicate (entity + 1 - s.sparse.length) none
    else s.sparse
  if (sparse.getD entity none).isSome then
    ({ s with sparse := sparse }, some (.alreadyExistingComponent entity))
  else
    (⟨s.components ++ [component], s.entities ++ [entity],
      sparse.set entity (some index)⟩, none)

/-- `SparseSet::set`, returning the updated store together with the error, if
any. -/
def set (s : SparseSet T) (entity : Entity) (component : T) :
    SparseSet T × Option ComponentError :=
  match s.sparse.getD entity none with
  | some index => ({ s with components := s.components.set index component }, none)
  | none => (s, some (.missingComponent entity))

/-- In-place modification through `SparseSet::get_mut`, as used by
`compute_reaction` under `if let Ok(rb) = world.rigid_body.get_mut(e)`:
apply `f` to the stored component when the entity has one, do nothing
otherwise. -/
def update (s : SparseSet T) (entity : Entity) (f : T → T) : SparseSet T :=
  match s.sparse.getD entity none with
  | some index =>
    { s with
      components :=
        match s.components.get? index with
        | some c => s.components.set index (f c)
        | none => s.components }
  | none => s

/-- `SparseSet::get_ents` (clone of the dense entity list). -/
def get_ents (s : SparseSet T) : List Entity := s.entities

/-- `SparseSet::get_ref` (the dense component list). -/
def get_ref (s : SparseSet T) : List T := s.components

/-- Well-formedness every store built through the API maintains: each sparse
index points into the dense component array. -/
def WF (s : SparseSet T) : Prop :=
  ∀ e index, s.sparse.getD e none = some index → index < s.components.length

end SparseSet

/-- `components::Transform` (angle kept as its radians value). -/
structure Transform where
  spawn : Vec2
  pos : Vec2
  angle : ℚ
deriving DecidableEq, Repr

/-- `components::RigidBody`.  The Rust struct keeps `mass` and `inv_mass`
private and couples them in `new`/`set_mass`; both are carried here. -/
structure RigidBody where
  vel : Vec2
  force : Vec2
  mass : ℚ
  inv_mass : ℚ
  rest : Bool
deriving DecidableEq, Repr

/-- `components::Surface`. -/
structure Surface where
  elast : ℚ
  static_friction : ℚ
  kinetic_friction : ℚ
deriving DecidableEq, Repr

/-- The `World` consumed by `src/ecs/systems/collisions.rs` (its `transform`,
`rigid_body`, `surface` and `shape` stores, each a `SparseSet`; the Rust
`get` on these stores returns `Result`, embedded as `Option` with
`Ok ↦ some`). -/
structure World where
  transform : SparseSet Transform
  rigid_body : SparseSet RigidBody
  surface : SparseSet Surface
  shape : SparseSet Shape

/-- `check_hitboxes` (`src/ecs/systems/collisions.rs`). -/
def check_hitboxes (hitbox_1 hitbox_2 : HitBox) : Bool :=
  !(decide (hitbox_1.min_x > hitbox_2.max_x + EPS) ||
    decide (hitbox_2.min_x > hitbox_1.max_x + EPS) ||
    decide (hitbox_1.min_y > hitbox_2.max_y + EPS) ||
    decide (hitbox_2.min_y > hitbox_1.max_y + EPS))

/-- `add_polygon_axes` inside `check_sat`: one normalized perpendicular per
non-degenerate edge. -/
def add_polygon_axes (polygon : Polygon) : List Vec2 :=
  (List.range polygon.verts.length).filterMap (fun i =>
    let edge := (polygon.verts.getD ((i + 1) % polygon.verts.length) ⟨0, 0⟩).sub
      (polygon.verts.getD i ⟨0, 0⟩)
    if EPS_SQR < edge.square_mag then some edge.perp_ccw.norm else none)

/-- `add_axes` inside `check_sat`; `none` models the `unimplemented!()` panic
for circles. -/
def add_axes : SweptShape → Option (List Vec2)
  | .unmoved shape _ =>
    match shape with
    | .segment s =>
      let edge := s.b.sub s.a
      some (if EPS_SQR < edge.square_mag then [edge.perp_ccw.norm] else [])
    | .triangle t =>
      some ([t.b.sub t.a, t.c.sub t.b, t.a.sub t.c].filterMap (fun edge =>
        if EPS_SQR < edge.square_mag then some edge.perp_ccw.norm else none))
    | .rect _ => some [⟨1, 0⟩, ⟨0, 1⟩]
    | .circle _ => none
    | .polygon p => some (add_polygon_axes p)
  | .axisRect _ _ => some [⟨1, 0⟩, ⟨0, 1⟩]
  | .moved swept => some (add_polygon_axes swept)

/-- `project_rect` inside `check_sat`. -/
def project_rect (rect : Rect) (pos axis : Vec2) : ℚ × ℚ :=
  let a_proj := pos.dot axis
  let b_proj := (pos.add_scalar rect.width 0).dot axis
  let c_proj := (pos.add_scalar 0 rect.height).dot axis
  let d_proj := (pos.add_scalar rect.width rect.height).dot axis
  (min a_proj (min b_proj (min c_proj d_proj)),
   max a_proj (max b_proj (max c_proj d_proj)))

/-- `project_shape` inside `check_sat` (the source folds min/max from
`±f32::INFINITY` for polygons; `foldMin`/`foldMax` agree on the non-empty
lists the program produces).  `none` models the circle panic. -/
def project_shape (swept_shape : SweptShape) (axis : Vec2) : Option (ℚ × ℚ) :=
  match swept_shape with
  | .unmoved shape pos =>
    match shape with
    | .segment s =>
      let a_proj := (pos.add s.a).dot axis
      let b_proj := (pos.add s.b).dot axis
      some (min a_proj b_proj, max a_proj b_proj)
    | .triangle t =>
      let a_proj := (pos.add t.a).dot axis
      let b_proj := (pos.add t.b).dot axis
      let c_proj := (pos.add t.c).dot axis
      some (min a_proj (min b_proj c_proj), max a_proj (max b_proj c_proj))
    | .rect r => some (project_rect r pos axis)
    | .circle _ => none
    | .polygon p =>
      some (foldMin (fun v => (pos.add v).dot axis) p.verts,
        foldMax (fun v => (pos.add v).dot axis) p.verts)
  | .axisRect swept pos => some (project_rect swept pos axis)
  | .moved swept =>
    some (foldMin (fun v => v.dot axis) swept.verts,
      foldMax (fun v => v.dot axis) swept.verts)

/-- `remove_duplicate_axes` inside `check_sat`.  In the source the inner
`for &u in &unique` loop only ever executes `continue`, which advances the
inner loop itself, so it has no effect and `unique.push(axis)` runs for every
input axis: the function keeps everything. -/
def remove_duplicate_axes (axes : List Vec2) : List Vec2 :=
  axes.foldl (fun unique axis => unique ++ [axis]) []

/-- The vertex sum loops inside `centroid` (`sum.add_mut(*vert)`). -/
def sumVerts (verts : List Vec2) : Vec2 := verts.foldl Vec2.add ⟨0, 0⟩

/-- `centroid` inside `check_sat`; `none` models the circle panic.  The
division by the vertex count is exact rational division (a 0-vertex polygon,
unreachable, would give NaN in Rust and `0` here). -/
def centroid : SweptShape → Option Vec2
  | .unmoved shape pos =>
    match shape with
    | .segment s => some (pos.add ((s.a.add s.b).scale (1/2)))
    | .triangle t => some (pos.add ((t.a.add (t.b.add t.c)).scale (1/3)))
    | .rect r => some (pos.add ⟨r.width / 2, r.height / 2⟩)
    | .circle _ => none
    | .polygon p => some (pos.add ((sumVerts p.verts).scale (1 / p.verts.length)))
  | .axisRect swept pos => some (pos.add ⟨swept.width / 2, swept.height / 2⟩)
  | .moved swept => some ((sumVerts swept.verts).scale (1 / swept.verts.length))

/-- The axis loop of `check_sat`.  `min_overlap` starts at `f32::INFINITY`,
modelled by `none`; `normal` starts at `(0,0)`.  Returns `some none` when a
separating axis is found, `some (some n)` with the minimum-overlap normal
otherwise; `none` models a panic (unreachable: a circle would already have
panicked in `add_axes`). -/
def sat_loop (swept_shape_1 swept_shape_2 : SweptShape) (delta : Vec2) :
    List Vec2 → Option ℚ → Vec2 → Option (Option Vec2)
  | [], _, normal => some (some normal)
  | axis :: rest, min_overlap, normal =>
    match project_shape swept_shape_1 axis, project_shape swept_shape_2 axis with
    | some proj_1, some proj_2 =>
      if proj_1.1 > proj_2.2 + EPS ∨ proj_2.1 > proj_1.2 + EPS then some none
      else
        let overlap := min proj_1.2 proj_2.2 - max proj_1.1 proj_2.1
        let improves : Bool :=
          match min_overlap with
          | none => true
          | some m => decide (overlap < m)
        if improves then
          sat_loop swept_shape_1 swept_shape_2 delta rest (some overlap)
            (if delta.dot axis < 0 then axis.neg else axis)
        else sat_loop swept_shape_1 swept_shape_2 delta rest min_overlap normal
    | _, _ => none

/-- `check_sat`. -/
def check_sat (swept_shape_1 swept_shape_2 : SweptShape) : Option (Option Vec2) :=
  match add_axes swept_shape_1, add_axes swept_shape_2 with
  | some axes_1, some axes_2 =>
    let axes := remove_duplicate_axes (axes_1 ++ axes_2)
    match centroid swept_shape_1, centroid swept_shape_2 with
    | some centroid_1, some centroid_2 =>
      sat_loop swept_shape_1 swept_shape_2 (centroid_2.sub centroid_1) axes none ⟨0, 0⟩
    | _, _ => none
  | _, _ => none

/-- `check_collision`: broad phase, then SAT. -/
def check_collision (swept_shape_1 swept_shape_2 : SweptShape) : Option (Option Vec2) :=
  if check_hitboxes swept_shape_1.hitbox swept_shape_2.hitbox then
    check_sat swept_shape_1 swept_shape_2
  else some none

/-- The comparison of `convex_hull`'s `sort_by`: by `x`, ties by `y`
(`partial_cmp` cannot see NaN on exact rationals). -/
def vert_le (a b : Vec2) : Prop := a.x < b.x ∨ (a.x = b.x ∧ a.y ≤ b.y)

instance : DecidableRel vert_le := fun a b => by unfold vert_le; infer_instance

instance : IsTrans Vec2 vert_le where
  trans a b c hab hbc := by
    rcases hab with h | ⟨e, h⟩ <;> rcases hbc with h' | ⟨e', h'⟩
    · exact Or.inl (lt_trans h h')
    · exact Or.inl (e' ▸ h)
    · exact Or.inl (e ▸ h')
    · exact Or.inr ⟨e.trans e', le_trans h h'⟩

instance : IsAntisymm Vec2 vert_le where
  antisymm a b hab hba := by
    rcases hab with h | ⟨e, h⟩ <;> rcases hba with h' | ⟨e', h'⟩
    · exact absurd h' (lt_asymm h)
    · exact absurd h (e' ▸ lt_irrefl _)
    · exact absurd h' (e ▸ lt_irrefl _)
    · cases a
      cases b
      simp only [Vec2.mk.injEq]
      exact ⟨e, le_antisymm h h'⟩

instance : IsTotal Vec2 vert_le where
  total a b := by
    rcases lt_trichotomy a.x b.x with h | h | h
    · exact Or.inl (Or.inl h)
    · rcases le_total a.y b.y with hy | hy
      · exact Or.inl (Or.inr ⟨h, hy⟩)
      · exact Or.inr (Or.inr ⟨h.symm, hy⟩)
    · exact Or.inr (Or.inl h)

/-- One step of the `while` loop inside `walk`: pop while the newest turn is
not strictly left.  The boundary is kept in reverse (head = last pushed). -/
def pop_chain (v : Vec2) : List Vec2 → List Vec2
  | b1 :: b2 :: rest =>
    if b2.signed_area b1 v ≤ 0 then pop_chain v (b2 :: rest) else b1 :: b2 :: rest
  | l => l

/-- `walk` inside `convex_hull`. -/
def walk (verts : List Vec2) : List Vec2 :=
  (verts.foldl (fun boundary v => v :: pop_chain v boundary) []).reverse

/-- Result of `convex_hull`: `Ok`, the returned `TooFewVertices` error, or a
panic inside polygon validation. -/
inductive HullResult where
  | ok (p : Polygon)
  | err (e : GeometryError)
  | panic
deriving DecidableEq, Repr

/-- `convex_hull` (monotone chain).  The Rust `sort_by` is a stable sort by
the lexicographic key; `insertionSort` is also stable, and on the inputs of
the theorems below all keys are distinct, making the sorted list unique. -/
def convex_hull (verts : List Vec2) : HullResult :=
  if verts.length < 3 then .err (.tooFewVertices verts.length)
  else
    let sorted := List.insertionSort vert_le verts
    let bottom_boundary := (walk sorted).dropLast
    let top_boundary := (walk sorted.reverse).dropLast
    match Polygon.new (bottom_boundary ++ top_boundary) with
    | some p => .ok p
    | none => .panic

/-- `convex_hull(..).expect(..)` wrapping into `SweptShape::Moved`: an `Err`
makes the `expect` panic, a validation panic aborts as well. -/
def hull_to_moved : HullResult → Option SweptShape
  | .ok p => some (.moved p)
  | .err _ => none
  | .panic => none

/-- `generate_swept_shape`; `none` models every panic (circle sweep
`unimplemented!()`, degenerate hull, invalid widened rectangle). -/
def generate_swept_shape (pos_1 pos_2 : Vec2) (shape : Shape) : Option SweptShape :=
  if pos_1.square_dist pos_2 ≤ EPS_SQR then some (.unmoved shape pos_1)
  else
    match shape with
    | .segment s =>
      hull_to_moved (convex_hull
        [pos_1.add s.a, pos_1.add s.b, pos_2.add s.a, pos_2.add s.b])
    | .triangle t =>
      hull_to_moved (convex_hull
        [pos_1.add t.a, pos_1.add t.b, pos_1.add t.c,
         pos_2.add t.a, pos_2.add t.b, pos_2.add t.c])
    | .rect r =>
      if |pos_1.x - pos_2.x| ≤ EPS then
        match Rect.new r.width (|pos_1.y - pos_2.y| + r.height) with
        | some swept => some (.axisRect swept ⟨pos_1.x, min pos_1.y pos_2.y⟩)
        | none => none
      else if |pos_1.y - pos_2.y| ≤ EPS then
        match Rect.new (|pos_1.x - pos_2.x| + r.width) r.height with
        | some swept => some (.axisRect swept ⟨min pos_1.x pos_2.x, pos_1.y⟩)
        | none => none
      else
        hull_to_moved (convex_hull
          [pos_1, pos_1.add ⟨r.width, 0⟩, pos_1.add ⟨0, r.height⟩,
           pos_1.add ⟨r.width, r.height⟩, pos_2, pos_2.add_scalar r.width 0,
           pos_2.add_scalar 0 r.height, pos_2.add_scalar r.width r.height])
    | .circle _ => none
    | .polygon p =>
      hull_to_moved (convex_hull
        (p.verts.flatMap (fun v => [pos_1.add v, pos_2.add v])))

/-- The `update rest` block at the top of `compute_reaction`: a nearly
vertical normal sets the resting flag on the pushed-down side (a static
entity, having no rigid body, is skipped by `if let Ok`). -/
def update_rest_flags (world : World) (entity_1 entity_2 : Entity) (normal : Vec2) :
    World :=
  if |normal.x| ≤ 0.2 then
    let world :=
      if 0 < normal.y then
        { world with
          rigid_body := world.rigid_body.update entity_1 fun rb => { rb with rest := true } }
      else world
    if normal.y < 0 then
      { world with
        rigid_body := world.rigid_body.update entity_2 fun rb => { rb with rest := true } }
    else world
  else world

/-- The normal-impulse update of `entity_1` in `compute_reaction`:
`vel.sub_mut(impulse_vector.scale(inv_mass_1))` followed by the y-velocity
rounding to 0 under the 0.6 threshold. -/
def apply_impulse_1 (world : World) (entity_1 : Entity) (impulse_vector : Vec2)
    (inv_mass_1 : ℚ) : World :=
  { world with
    rigid_body := world.rigid_body.update entity_1 fun rb =>
      let v := rb.vel.sub (impulse_vector.scale inv_mass_1)
      let v2 := if |v.y| ≤ 0.6 then { v with y := 0 } else v
      { rb with vel := v2 } }

/-- The normal-impulse update of `entity_2`: `add_mut` plus y-rounding. -/
def apply_impulse_2 (world : World) (entity_2 : Entity) (impulse_vector : Vec2)
    (inv_mass_2 : ℚ) : World :=
  { world with
    rigid_body := world.rigid_body.update entity_2 fun rb =>
      let v := rb.vel.add (impulse_vector.scale inv_mass_2)
      let v2 := if |v.y| ≤ 0.6 then { v with y := 0 } else v
      { rb with vel := v2 } }

/-- The friction-impulse update of `entity_1` (`sub_mut`). -/
def apply_friction_1 (world : World) (entity_1 : Entity)
    (friction_impulse_vector : Vec2) (inv_mass_1 : ℚ) : World :=
  { world with
    rigid_body := world.rigid_body.update entity_1 fun rb =>
      { rb with vel := rb.vel.sub (friction_impulse_vector.scale inv_mass_1) } }

/-- The friction-impulse update of `entity_2` (`add_mut`). -/
def apply_friction_2 (world : World) (entity_2 : Entity)
    (friction_impulse_vector : Vec2) (inv_mass_2 : ℚ) : World :=
  { world with
    rigid_body := world.rigid_body.update entity_2 fun rb =>
      { rb with vel := rb.vel.add (friction_impulse_vector.scale inv_mass_2) } }

/-- The friction block of `compute_reaction` (from the `recompute rel_vel`
comment onward): recompute the tangential slip from the post-impulse
velocities, clamp by Coulomb's law, and apply the friction impulse to both
entities (`expect` on `entity_1` modelled by `none`). -/
def friction_phase (world : World) (entity_1 entity_2 : Entity) (normal : Vec2)
    (vel_1 vel_2 : Vec2)
    (inv_mass_sum inv_mass_1 inv_mass_2 static_friction kinetic_friction impulse : ℚ) :
    Option World :=
  let rel_vel := vel_2.sub vel_1
  let normal_rel_vel_mag := rel_vel.dot normal
  let tangent_rel_vel := rel_vel.sub (normal.scale normal_rel_vel_mag)
  let tangent_rel_vel_mag := tangent_rel_vel.mag
  if tangent_rel_vel_mag < EPS then some world
  else
    let tangent_unit := tangent_rel_vel.scale (1 / tangent_rel_vel_mag)
    let friction_impulse := -tangent_rel_vel_mag / inv_mass_sum
    let max_static := static_friction * |impulse|
    let friction_impulse :=
      if |friction_impulse| ≤ max_static then friction_impulse
      else -kinetic_friction * |impulse|
    let friction_impulse_vector := tangent_unit.scale friction_impulse
    match world.rigid_body.get entity_1 with
    | none => none
    | some _ =>
      let world := apply_friction_1 world entity_1 friction_impulse_vector inv_mass_1
      let world :=
        match world.rigid_body.get entity_2 with
        | some _ => apply_friction_2 world entity_2 friction_impulse_vector inv_mass_2
        | none => world
      some world

/-- The normal-impulse block of `compute_reaction` (from `let impulse = ...`
onward): apply the normal impulse to both entities, re-read the post-impulse
velocities (`expect` on `entity_1` modelled by `none`), then run the friction
block. -/
def impulse_phase (world : World) (entity_1 entity_2 : Entity) (normal : Vec2)
    (elast static_friction kinetic_friction inv_mass_1 inv_mass_2 inv_mass_sum
      normal_rel_vel_mag : ℚ) : Option World :=
  let impulse := -((1 + elast) * normal_rel_vel_mag / inv_mass_sum)
  let impulse_vector := normal.scale impulse
  let world := apply_impulse_1 world entity_1 impulse_vector inv_mass_1
  match world.rigid_body.get entity_1 with
  | none => none
  | some rb_1' =>
  let vel_1 := rb_1'.vel
  let wv_2 :=
    match world.rigid_body.get entity_2 with
    | some _ =>
      let world := apply_impulse_2 world entity_2 impulse_vector inv_mass_2
      (world,
        match world.rigid_body.get entity_2 with
        | some rb_2 => rb_2.vel
        | none => Vec2.new 0 0)
    | none => (world, Vec2.new 0 0)
  friction_phase wv_2.1 entity_1 entity_2 normal vel_1 wv_2.2 inv_mass_sum
    inv_mass_1 inv_mass_2 static_friction kinetic_friction impulse

/-- `compute_reaction`; `none` models the `expect` panics on a missing surface
or a missing rigid body on `entity_1`. -/
def compute_reaction (world : World) (entity_1 entity_2 : Entity) (normal : Vec2) :
    Option World :=
  let world := update_rest_flags world entity_1 entity_2 normal
  match world.surface.get entity_1 with
  | none => none
  | some surface_1 =>
  match world.surface.get entity_2 with
  | none => none
  | some surface_2 =>
  let elast := min surface_1.elast surface_2.elast
  let static_friction := Rat.sqrt (surface_1.static_friction * surface_2.static_friction)
  let kinetic_friction := Rat.sqrt (surface_1.kinetic_friction * surface_2.kinetic_friction)
  match world.rigid_body.get entity_1 with
  | none => none
  | some rb_1 =>
  let vel_1 := rb_1.vel
  let inv_mass_1 := rb_1.inv_mass
  let vm_2 :=
    match world.rigid_body.get entity_2 with
    | some rb_2 => (rb_2.vel, rb_2.inv_mass)
    | none => (Vec2.new 0 0, 0)
  let vel_2 := vm_2.1
  let inv_mass_2 := vm_2.2
  let inv_mass_sum := inv_mass_1 + inv_mass_2
  let rel_vel := vel_2.sub vel_1
  let normal_rel_vel_mag := rel_vel.dot normal
  if EPS ≤ normal_rel_vel_mag then some world
  else
    impulse_phase world entity_1 entity_2 normal elast static_friction
      kinetic_friction inv_mass_1 inv_mass_2 inv_mass_sum normal_rel_vel_mag

/-- The `for &entity_2 in ents` loop of `resolve_obj_collisions`.  `entity_1`'s
position is read once at entry; its velocity and shape are re-read every
iteration (with `expect`, modelled by the `none` branch). -/
def resolve_obj_go (entity_1 : Entity) (pos_1 : Vec2) :
    World → List Entity → Bool → Option (World × Bool)
  | world, [], solved => some (world, solved)
  | world, entity_2 :: rest, solved =>
    if entity_1 = entity_2 then resolve_obj_go entity_1 pos_1 world rest solved
    else
      match world.transform.get entity_2, world.surface.get entity_2,
            world.shape.get entity_2 with
      | some t_2, some _, some shape_2 =>
        let velr_2 := (world.rigid_body.get entity_2).map fun rb => rb.vel
        match world.rigid_body.get entity_1, world.shape.get entity_1 with
        | some rb_1, some shape_1 =>
          match generate_swept_shape pos_1 (pos_1.add rb_1.vel) shape_1 with
          | none => none
          | some swept_shape_1 =>
            let swept_2opt :=
              match velr_2 with
              | none => generate_swept_shape t_2.pos t_2.pos shape_2
              | some vel_2 => generate_swept_shape t_2.pos (t_2.pos.add vel_2) shape_2
            match swept_2opt with
            | none => none
            | some swept_shape_2 =>
              match check_collision swept_shape_1 swept_shape_2 with
              | none => none
              | some (some normal) =>
                match compute_reaction world entity_1 entity_2 normal with
                | none => none
                | some world' => resolve_obj_go entity_1 pos_1 world' rest false
              | some none => resolve_obj_go entity_1 pos_1 world rest solved
        | _, _ => none
      | _, _, _ => resolve_obj_go entity_1 pos_1 world rest solved

/-- `resolve_obj_collisions`: an entity missing any dynamic-object component
counts as solved and is skipped. -/
def resolve_obj_collisions (world : World) (entity_1 : Entity) (ents : List Entity) :
    Option (World × Bool) :=
  match world.transform.get entity_1, world.rigid_body.get entity_1,
        world.surface.get entity_1, world.shape.get entity_1 with
  | some t_1, some _, some _, some _ => resolve_obj_go entity_1 t_1.pos world ents true
  | _, _, _, _ => some (world, true)

/-- The `for &entity in ents.iter()` loop of one iteration of
`resolve_collisions`: `solved` starts `true` and is cleared whenever a call
reports an unsolved pair. -/
def run_pass_go (ents : List Entity) : World → List Entity → Bool → Option (World × Bool)
  | world, [], solved => some (world, solved)
  | world, entity :: rest, solved =>
    match resolve_obj_collisions world entity ents with
    | none => none
    | some (world', s) => run_pass_go ents world' rest (solved && s)

/-- One full pass of `resolve_collisions` over the entity list. -/
def run_pass (world : World) (ents : List Entity) : Option (World × Bool) :=
  run_pass_go ents world ents true

/-- The `for _ in 0..iters` loop of `resolve_collisions`, also counting the
passes actually executed (the `break` on a solved pass stops the loop). -/
def resolve_iters : World → List Entity → Nat → Option (World × Nat)
  | world, _, 0 => some (world, 0)
  | world, ents, n + 1 =>
    match run_pass world ents with
    | none => none
    | some (world', solved) =>
      if solved then some (world', 1)
      else
        match resolve_iters world' ents n with
        | none => none
        | some (world'', k) => some (world'', k + 1)

/-- `sort_objs_by_y`: zip each transform's `y` with its entity, stable-sort by
`y` (`total_cmp`), return the entities. -/
def sort_objs_by_y (world : World) : List Entity :=
  let ys := world.transform.get_ref.map fun t => t.pos.y
  let ents := world.transform.get_ents
  let pairs := ys.zip ents
  (List.insertionSort (fun a b : ℚ × Entity => a.1 ≤ b.1) pairs).map fun p => p.2

/-- The entity list `resolve_collisions` iterates over. -/
def collision_ents (world : World) (sort : Bool) : List Entity :=
  if sort then sort_objs_by_y world else world.transform.get_ents

/-- `resolve_collisions`. -/
def resolve_collisions (world : World) (sort : Bool) (iters : Nat) : Option World :=
  (resolve_iters world (collision_ents world sort) iters).map fun r => r.1

/-- Concrete test world: two unit-mass dynamic entities (ids 0 and 1) with
velocities `(v, 0)` and `(−v, 0)`, restitution 1 and zero friction, as in the
head-on exchange test. -/
def head_on_world (v : ℚ) : World :=
  { transform := ⟨[], [], []⟩
    rigid_body := ⟨[⟨⟨v, 0⟩, ⟨0, 0⟩, 1, 1, false⟩, ⟨⟨-v, 0⟩, ⟨0, 0⟩, 1, 1, false⟩],
      [0, 1], [some 0, some 1]⟩
    surface := ⟨[⟨1, 0, 0⟩, ⟨1, 0, 0⟩], [0, 1], [some 0, some 1]⟩
    shape := ⟨[], [], []⟩ }

/-- Concrete test world: two unit-mass dynamic entities (ids 0 and 1), both
with velocity `(0, 1/2)` (zero relative velocity), restitution 0 and zero
friction. -/
def resting_pair_world : World :=
  { transform := ⟨[], [], []⟩
    rigid_body := ⟨[⟨⟨0, 1/2⟩, ⟨0, 0⟩, 1, 1, false⟩, ⟨⟨0, 1/2⟩, ⟨0, 0⟩, 1, 1, false⟩],
      [0, 1], [some 0, some 1]⟩
    surface := ⟨[⟨0, 0, 0⟩, ⟨0, 0, 0⟩], [0, 1], [some 0, some 1]⟩
    shape := ⟨[], [], []⟩ }

/-- The non-velocity, non-resting data of a rigid-body store: accumulated
force, mass and reciprocal mass of every stored component, in dense order. -/
def rb_frame (s : SparseSet RigidBody) : List (Vec2 × ℚ × ℚ) :=
  s.components.map fun rb => (rb.force, rb.mass, rb.inv_mass)

/-- Frame relation for the solver: everything except rigid-body velocities and
resting flags coincides. -/
def frame_eq (w w' : World) : Prop :=
  w'.transform = w.transform ∧ w'.surface = w.surface ∧ w'.shape = w.shape ∧
  w'.rigid_body.entities = w.rigid_body.entities ∧
  w'.rigid_body.sparse = w.rigid_body.sparse ∧
  rb_frame w'.rigid_body = rb_frame w.rigid_body

/-- The world with no entities and empty component stores. -/
def empty_world : World :=
  ⟨⟨[], [], []⟩, ⟨[], [], []⟩, ⟨[], [], []⟩, ⟨[], [], []⟩⟩

/-! ### Lemmas about the component store -/

theorem getD_replicate_none (k i : Nat) :
    (List.replicate k (none : Option Nat)).getD i none = none := by
  rcases Nat.lt_or_ge i k with h | h
  · rw [List.getD_eq_getElem _ _ (by simpa using h)]
    simp
  · rw [List.getD_eq_default]
    simpa using h

theorem sparse_resize_getD (l : List (Option Nat)) (e : Nat) :
    (if l.length ≤ e then l ++ List.replicate (e + 1 - l.length) none else l).getD e none
      = l.getD e none := by
  split
  case isTrue h =>
    rw [List.getD_append_right _ _ _ _ h, getD_replicate_none, List.getD_eq_default _ _ h]
  case isFalse h => rfl

theorem getD_lt_length_of_isSome {l : List (Option Nat)} {e : Nat}
    (h : (l.getD e none).isSome = true) : e < l.length := by
  by_contra hc
  rw [List.getD_eq_default _ _ (Nat.le_of_not_lt hc)] at h
  simp at h

theorem SparseSet.get_isSome_iff {T : Type} (s : SparseSet T) (hwf : s.WF) (e : Entity) :
    (s.get e).isSome = ((s.sparse.getD e none).isSome) := by
  unfold SparseSet.get
  cases hs : s.sparse.getD e none with
  | none => simp
  | some index =>
    have hlt := hwf e index hs
    simp [List.get?_eq_getElem?, List.getElem?_eq_getElem hlt]

theorem SparseSet.get_eq_none_iff {T : Type} (s : SparseSet T) (hwf : s.WF) (e : Entity) :
    s.get e = none ↔ s.sparse.getD e none = none := by
  have h := s.get_isSome_iff hwf e
  constructor
  · intro hg
    rw [hg] at h
    cases hs : s.sparse.getD e none with
    | none => rfl
    | some index => rw [hs] at h; simp at h
  · intro hs
    cases hg : s.get e with
    | none => rfl
    | some c => rw [hg, hs] at h; simp at h

/-! ### Lemmas about the SAT test -/

theorem foldl_append_singleton (acc : List Vec2) (l : List Vec2) :
    List.foldl (fun unique axis => unique ++ [axis]) acc l = acc ++ l := by
  induction l generalizing acc with
  | nil => simp
  | cons a l ih => simp [List.foldl, ih]

/-- The misplaced `continue` makes `remove_duplicate_axes` keep every axis. -/
theorem remove_duplicate_axes_eq (axes : List Vec2) :
    remove_duplicate_axes axes = axes := by
  unfold remove_duplicate_axes
  simpa using foldl_append_singleton [] axes

/-- If the SAT axis loop reports a collision, no tested axis separated the two
projections. -/
theorem sat_loop_no_separation {s1 s2 : SweptShape} {delta : Vec2} :
    ∀ (axes : List Vec2) (mo : Option ℚ) (nrm res : Vec2),
      sat_loop s1 s2 delta axes mo nrm = some (some res) →
      ∀ a ∈ axes, ∀ p1 p2 : ℚ × ℚ, project_shape s1 a = some p1 →
        project_shape s2 a = some p2 →
        ¬(p1.1 > p2.2 + EPS ∨ p2.1 > p1.2 + EPS) := by
  intro axes
  induction axes with
  | nil => intro mo nrm res _ a ha; simp at ha
  | cons axis rest ih =>
    intro mo nrm res hloop a ha p1 p2 hp1 hp2
    rw [sat_loop] at hloop
    rcases List.mem_cons.mp ha with rfl | ha
    · rw [hp1, hp2] at hloop
      simp only at hloop
      by_cases hsep : p1.1 > p2.2 + EPS ∨ p2.1 > p1.2 + EPS
      · rw [if_pos hsep] at hloop
        simp at hloop
      · exact hsep
    · cases hq1 : project_shape s1 axis with
      | none => rw [hq1] at hloop; simp at hloop
      | some q1 =>
        cases hq2 : project_shape s2 axis with
        | none => rw [hq1, hq2] at hloop; simp at hloop
        | some q2 =>
          rw [hq1, hq2] at hloop
          simp only at hloop
          by_cases hsep : q1.1 > q2.2 + EPS ∨ q2.1 > q1.2 + EPS
          · rw [if_pos hsep] at hloop
            simp at hloop
          · rw [if_neg hsep] at hloop
            split at hloop
            · exact ih _ _ _ hloop a ha p1 p2 hp1 hp2
            · exact ih _ _ _ hloop a ha p1 p2 hp1 hp2

/-- Projection of a rectangle swept shape onto the horizontal world axis. -/
theorem project_rect_horiz (r : Rect) (p : Vec2) (hw : 0 ≤ r.width) :
    project_rect r p ⟨1, 0⟩ = (p.x, p.x + r.width) := by
  simp only [project_rect, Vec2.dot, Vec2.add_scalar]
  norm_num
  linarith

/-- Projection of a rectangle swept shape onto the vertical world axis. -/
theorem project_rect_vert (r : Rect) (p : Vec2) (hh : 0 ≤ r.height) :
    project_rect r p ⟨0, 1⟩ = (p.y, p.y + r.height) := by
  simp only [project_rect, Vec2.dot, Vec2.add_scalar]
  norm_num
  linarith

/-! ### Lemmas about the reaction engine -/

theorem rat_sqrt_zero : Rat.sqrt 0 = 0 := by
  simp [Rat.sqrt_ofNat]

theorem rat_sqrt_one : Rat.sqrt 1 = 1 := by
  simp [Rat.sqrt_ofNat]

theorem get?_some_lt_length {T : Type} {l : List T} {i : Nat} {c : T}
    (h : l.get? i = some c) : i < l.length := by
  rw [List.get?_eq_getElem?] at h
  by_contra hc
  rw [List.getElem?_eq_none (Nat.le_of_not_lt hc)] at h
  exact Option.noConfusion h

theorem SparseSet.get_update_map {T U : Type} (s : SparseSet T) (e e' : Entity)
    (f : T → T) (g : T → U) (hfg : ∀ c, g (f c) = g c) :
    ((s.update e f).get e').map g = (s.get e').map g := by
  unfold SparseSet.update SparseSet.get
  cases hs : s.sparse.getD e none with
  | none => rfl
  | some index =>
    cases hs' : s.sparse.getD e' none with
    | none => rfl
    | some index' =>
      cases hc : s.components.get? index with
      | none =>
        rw [List.get?_eq_getElem?] at hc
        simp [hc]
      | some c =>
        have hidx : index < s.components.length := get?_some_lt_length hc
        rw [List.get?_eq_getElem?] at hc
        simp only [List.get?_eq_getElem?, hc]
        rcases ne_or_eq index index' with he' | he'
        · rw [List.getElem?_set_ne he']
        · subst he'
          rw [List.getElem?_set_eq_of_lt _ hidx, hc]
          simp [hfg]

theorem update_rest_flags_surface (w : World) (e1 e2 : Entity) (n : Vec2) :
    (update_rest_flags w e1 e2 n).surface = w.surface := by
  unfold update_rest_flags
  split_ifs <;> rfl

theorem update_rest_flags_transform (w : World) (e1 e2 : Entity) (n : Vec2) :
    (update_rest_flags w e1 e2 n).transform = w.transform := by
  unfold update_rest_flags
  split_ifs <;> rfl

theorem update_rest_flags_shape (w : World) (e1 e2 : Entity) (n : Vec2) :
    (update_rest_flags w e1 e2 n).shape = w.shape := by
  unfold update_rest_flags
  split_ifs <;> rfl

theorem update_rest_flags_vel (w : World) (e1 e2 : Entity) (n : Vec2) (e : Entity) :
    ((update_rest_flags w e1 e2 n).rigid_body.get e).map (fun rb => rb.vel) =
      (w.rigid_body.get e).map (fun rb => rb.vel) := by
  unfold update_rest_flags
  split_ifs <;> simp [SparseSet.get_update_map]

/-! ### Lemmas about swept-shape generation -/

/-- Sweeping the unit-diagonal segment along its own direction by `(t, t)`
collects four collinear points; the monotone chain collapses them to two
vertices and polygon validation aborts. -/
theorem gss_segment_along_direction_panics (t : ℚ) (ht : 1 < t) :
    generate_swept_shape ⟨0, 0⟩ ⟨t, t⟩ (.segment ⟨⟨0, 0⟩, ⟨1, 1⟩⟩) = none := by
  have hd : ¬((Vec2.square_dist ⟨0, 0⟩ ⟨t, t⟩) ≤ EPS_SQR) := by
    simp only [Vec2.square_dist, pow2, EPS_SQR, EPS]
    intro h
    nlinarith
  have h1 : List.orderedInsert vert_le ⟨t, t⟩ [⟨t + 1, t + 1⟩] =
      [⟨t, t⟩, ⟨t + 1, t + 1⟩] := by
    rw [List.orderedInsert, if_pos (show vert_le ⟨t, t⟩ ⟨t + 1, t + 1⟩ from
      Or.inl (show (t : ℚ) < t + 1 by linarith))]
  have h2 : List.orderedInsert vert_le ⟨1, 1⟩ [⟨t, t⟩, ⟨t + 1, t + 1⟩] =
      [⟨1, 1⟩, ⟨t, t⟩, ⟨t + 1, t + 1⟩] := by
    rw [List.orderedInsert, if_pos (show vert_le ⟨1, 1⟩ ⟨t, t⟩ from Or.inl ht)]
  have h3 : List.orderedInsert vert_le ⟨0, 0⟩ [⟨1, 1⟩, ⟨t, t⟩, ⟨t + 1, t + 1⟩] =
      [⟨0, 0⟩, ⟨1, 1⟩, ⟨t, t⟩, ⟨t + 1, t + 1⟩] := by
    rw [List.orderedInsert, if_pos (show vert_le ⟨0, 0⟩ ⟨1, 1⟩ from
      Or.inl (show (0 : ℚ) < 1 by norm_num))]
  have hsort : List.insertionSort vert_le [⟨0, 0⟩, ⟨1, 1⟩, ⟨t, t⟩, ⟨t + 1, t + 1⟩] =
      [⟨0, 0⟩, ⟨1, 1⟩, ⟨t, t⟩, ⟨t + 1, t + 1⟩] := by
    simp only [List.insertionSort]
    rw [show List.orderedInsert vert_le ⟨t + 1, t + 1⟩ ([] : List Vec2) =
      [⟨t + 1, t + 1⟩] from rfl, h1, h2, h3]
  unfold generate_swept_shape
  rw [if_neg hd]
  dsimp only
  norm_num [Vec2.add]
  unfold convex_hull
  rw [if_neg (by norm_num)]
  dsimp only
  rw [hsort]
  norm_num [walk, pop_chain, Vec2.signed_area, Vec2.cross, Vec2.sub,
    Polygon.new, polygonChecks, hull_to_moved]

/-- Sweeping the horizontal unit segment perpendicular to itself by `(0, d)`
produces the expected counter-clockwise parallelogram hull. -/
theorem gss_segment_perp_translation (d : ℚ) (hd : EPS < d) :
    generate_swept_shape ⟨0, 0⟩ ⟨0, d⟩ (.segment ⟨⟨0, 0⟩, ⟨1, 0⟩⟩) =
      some (.moved ⟨[⟨0, 0⟩, ⟨1, 0⟩, ⟨1, d⟩, ⟨0, d⟩]⟩) := by
  have hdpos : 0 < d := lt_trans (by norm_num [EPS]) hd
  have hd0le : 0 ≤ d := le_of_lt hdpos
  have hdq : (1 : ℚ)/1000000 < d := hd
  have hdist : ¬((Vec2.square_dist ⟨0, 0⟩ ⟨0, d⟩) ≤ EPS_SQR) := by
    simp only [Vec2.square_dist, pow2, EPS_SQR, EPS]
    intro h
    nlinarith [hdq, h]
  have h1 : List.orderedInsert vert_le ⟨0, d⟩ [⟨1, d⟩] = [⟨0, d⟩, ⟨1, d⟩] := by
    rw [List.orderedInsert, if_pos (show vert_le ⟨0, d⟩ ⟨1, d⟩ from
      Or.inl (show (0 : ℚ) < 1 by norm_num))]
  have h2 : List.orderedInsert vert_le ⟨1, 0⟩ [⟨0, d⟩, ⟨1, d⟩] =
      [⟨0, d⟩, ⟨1, 0⟩, ⟨1, d⟩] := by
    rw [List.orderedInsert, if_neg (show ¬vert_le ⟨1, 0⟩ ⟨0, d⟩ by
      intro hle
      rcases hle with hlt | ⟨heq, _⟩
      · norm_num at hlt
      · norm_num at heq)]
    rw [List.orderedInsert, if_pos (show vert_le ⟨1, 0⟩ ⟨1, d⟩ from
      Or.inr ⟨rfl, hd0le⟩)]
  have h3 : List.orderedInsert vert_le ⟨0, 0⟩ [⟨0, d⟩, ⟨1, 0⟩, ⟨1, d⟩] =
      [⟨0, 0⟩, ⟨0, d⟩, ⟨1, 0⟩, ⟨1, d⟩] := by
    rw [List.orderedInsert, if_pos (show vert_le ⟨0, 0⟩ ⟨0, d⟩ from
      Or.inr ⟨rfl, hd0le⟩)]
  have hsort : List.insertionSort vert_le [⟨0, 0⟩, ⟨1, 0⟩, ⟨0, d⟩, ⟨1, d⟩] =
      [⟨0, 0⟩, ⟨0, d⟩, ⟨1, 0⟩, ⟨1, d⟩] := by
    simp only [List.insertionSort]
    rw [show List.orderedInsert vert_le ⟨1, d⟩ ([] : List Vec2) = [⟨1, d⟩] from rfl,
      h1, h2, h3]
  have hnle : ¬(d ≤ 0) := not_le.mpr hdpos
  have hnlt : ¬(d < EPS) := not_lt.mpr (le_of_lt hd)
  have habs : |(-d : ℚ)| = d := by rw [abs_neg, abs_of_pos hdpos]
  unfold generate_swept_shape
  rw [if_neg hdist]
  dsimp only
  norm_num [Vec2.add]
  unfold convex_hull
  rw [if_neg (by norm_num)]
  dsimp only
  rw [hsort]
  norm_num [walk, pop_chain, Vec2.signed_area, Vec2.cross, Vec2.sub,
    Polygon.new, polygonChecks, noDupVerts, convexOk, hull_to_moved,
    hdpos, hd0le, hnle, hnlt, habs, hd, EPS, List.range_succ]
  rw [if_pos (⟨by rw [abs_of_pos hdpos]; exact le_of_lt hdq, hdq⟩ :
    (1 : ℚ)/1000000 ≤ |d| ∧ (1 : ℚ)/1000000 < d)]

/-! ### Frame lemmas for the solver loop -/

theorem list_set_get_same {α : Type} (l : List α) (i : Nat) (v : α)
    (h : l.get? i = some v) : l.set i v = l := by
  induction l generalizing i with
  | nil => simp at h
  | cons a t ih =>
    cases i with
    | zero =>
      injection h with h
      subst h
      rfl
    | succ n =>
      simp only [List.get?] at h
      simp [List.set, ih n h]

theorem SparseSet.update_entities {T : Type} (s : SparseSet T) (e : Entity)
    (f : T → T) : (s.update e f).entities = s.entities := by
  unfold SparseSet.update
  cases s.sparse.getD e none <;> rfl

theorem SparseSet.update_sparse {T : Type} (s : SparseSet T) (e : Entity)
    (f : T → T) : (s.update e f).sparse = s.sparse := by
  unfold SparseSet.update
  cases s.sparse.getD e none <;> rfl

theorem rb_frame_update (s : SparseSet RigidBody) (e : Entity)
    (f : RigidBody → RigidBody)
    (hf : ∀ rb, ((f rb).force, (f rb).mass, (f rb).inv_mass) =
      (rb.force, rb.mass, rb.inv_mass)) :
    rb_frame (s.update e f) = rb_frame s := by
  unfold SparseSet.update
  cases hs : s.sparse.getD e none with
  | none => rfl
  | some index =>
    simp only
    cases hc : s.components.get? index with
    | none => simp [hc]
    | some c =>
      simp only [hc, rb_frame, List.map_set]
      rw [hf c]
      apply list_set_get_same
      rw [List.get?_map, hc]
      rfl

theorem frame_eq_refl (w : World) : frame_eq w w := ⟨rfl, rfl, rfl, rfl, rfl, rfl⟩

theorem frame_eq_trans {w1 w2 w3 : World} (h12 : frame_eq w1 w2)
    (h23 : frame_eq w2 w3) : frame_eq w1 w3 :=
  ⟨h23.1.trans h12.1, h23.2.1.trans h12.2.1, h23.2.2.1.trans h12.2.2.1,
   h23.2.2.2.1.trans h12.2.2.2.1, h23.2.2.2.2.1.trans h12.2.2.2.2.1,
   h23.2.2.2.2.2.trans h12.2.2.2.2.2⟩

theorem frame_eq_update_world (w : World) (e : Entity) (f : RigidBody → RigidBody)
    (hf : ∀ rb, ((f rb).force, (f rb).mass, (f rb).inv_mass) =
      (rb.force, rb.mass, rb.inv_mass)) :
    frame_eq w { w with rigid_body := w.rigid_body.update e f } :=
  ⟨rfl, rfl, rfl, SparseSet.update_entities _ _ _, SparseSet.update_sparse _ _ _,
   rb_frame_update _ _ _ hf⟩

theorem update_rest_flags_frame (w : World) (e1 e2 : Entity) (n : Vec2) :
    frame_eq w (update_rest_flags w e1 e2 n) := by
  unfold update_rest_flags
  dsimp only
  split_ifs <;>
    first
      | exact frame_eq_refl w
      | exact frame_eq_update_world w _ _ (fun rb => rfl)
      | exact frame_eq_trans
          (frame_eq_update_world w e1 (fun rb => { rb with rest := true })
            (fun rb => rfl))
          (frame_eq_update_world _ e2 (fun rb => { rb with rest := true })
            (fun rb => rfl))

theorem apply_impulse_1_frame (w : World) (e : Entity) (iv : Vec2) (im : ℚ) :
    frame_eq w (apply_impulse_1 w e iv im) := by
  unfold apply_impulse_1
  apply frame_eq_update_world
  intro rb
  rfl

theorem apply_impulse_2_frame (w : World) (e : Entity) (iv : Vec2) (im : ℚ) :
    frame_eq w (apply_impulse_2 w e iv im) := by
  unfold apply_impulse_2
  apply frame_eq_update_world
  intro rb
  rfl

theorem apply_friction_1_frame (w : World) (e : Entity) (iv : Vec2) (im : ℚ) :
    frame_eq w (apply_friction_1 w e iv im) := by
  unfold apply_friction_1
  apply frame_eq_update_world
  intro rb
  rfl

theorem apply_friction_2_frame (w : World) (e : Entity) (iv : Vec2) (im : ℚ) :
    frame_eq w (apply_friction_2 w e iv im) := by
  unfold apply_friction_2
  apply frame_eq_update_world
  intro rb
  rfl

/-- The friction block only touches rigid-body velocities. -/
theorem friction_phase_frame (world : World) (e1 e2 : Entity) (normal v1 v2 : Vec2)
    (ims im1 im2 sf kf imp : ℚ) (w' : World)
    (h : friction_phase world e1 e2 normal v1 v2 ims im1 im2 sf kf imp = some w') :
    frame_eq world w' := by
  unfold friction_phase at h
  dsimp only at h
  repeat'
    first
      | exact Option.noConfusion h
      | split at h
  all_goals injection h with h2
  all_goals subst h2
  all_goals
    repeat'
      first
        | exact frame_eq_refl _
        | refine frame_eq_trans ?_ (apply_friction_1_frame _ _ _ _)
        | refine frame_eq_trans ?_ (apply_friction_2_frame _ _ _ _)

/-- The normal-impulse block only touches rigid-body velocities. -/
theorem impulse_phase_frame (world : World) (e1 e2 : Entity) (normal : Vec2)
    (el sf kf im1 im2 ims nrm : ℚ) (w' : World)
    (h : impulse_phase world e1 e2 normal el sf kf im1 im2 ims nrm = some w') :
    frame_eq world w' := by
  unfold impulse_phase at h
  dsimp only at h
  repeat'
    first
      | exact Option.noConfusion h
      | split at h
  all_goals dsimp only at h
  all_goals
    refine frame_eq_trans ?_ (friction_phase_frame _ _ _ _ _ _ _ _ _ _ _ _ _ h)
  case h_2.h_1.h_1 =>
    exact frame_eq_trans (apply_impulse_1_frame _ _ _ _) (apply_impulse_2_frame _ _ _ _)
  case h_2.h_1.h_2 =>
    exact frame_eq_trans (apply_impulse_1_frame _ _ _ _) (apply_impulse_2_frame _ _ _ _)
  case h_2.h_2 =>
    exact apply_impulse_1_frame _ _ _ _

set_option maxHeartbeats 800000 in
/-- `compute_reaction` only touches rigid-body velocities and resting flags. -/
theorem compute_reaction_frame (w : World) (e1 e2 : Entity) (n : Vec2) (w' : World)
    (h : compute_reaction w e1 e2 n = some w') : frame_eq w w' := by
  unfold compute_reaction at h
  dsimp only at h
  set w0 := update_rest_flags w e1 e2 n with hw0
  have h0 : frame_eq w w0 := by
    rw [hw0]
    exact update_rest_flags_frame w e1 e2 n
  repeat'
    first
      | exact Option.noConfusion h
      | split at h
  all_goals
    first
      | (injection h with h2
         subst h2
         exact h0)
      | exact frame_eq_trans h0
          (impulse_phase_frame _ _ _ _ _ _ _ _ _ _ _ _ h)

/-- Under `frame_eq`, every per-entity read of the rigid-body store agrees on
force, mass and reciprocal mass. -/
theorem frame_eq_get_map {w w' : World} (hf : frame_eq w w') (e : Entity) :
    ((w'.rigid_body.get e).map fun rb => (rb.force, rb.mass, rb.inv_mass)) =
      (w.rigid_body.get e).map fun rb => (rb.force, rb.mass, rb.inv_mass) := by
  obtain ⟨-, -, -, -, hsparse, hcomp⟩ := hf
  unfold SparseSet.get
  rw [hsparse]
  cases hs : w.rigid_body.sparse.getD e none with
  | none => rfl
  | some i =>
    simp only [List.get?_eq_getElem?]
    have hmap := congrArg (fun l => l[i]?) hcomp
    simp only [rb_frame] at hmap
    rw [← List.getElem?_map, ← List.getElem?_map]
    exact hmap

/-- The inner pair loop of `resolve_obj_collisions` only touches rigid-body
velocities and resting flags. -/
theorem resolve_obj_go_frame (e1 : Entity) (p1 : Vec2) (ents : List Entity) :
    ∀ (w : World) (solved : Bool) (w' : World) (s' : Bool),
      resolve_obj_go e1 p1 w ents solved = some (w', s') → frame_eq w w' := by
  induction ents with
  | nil =>
    intro w solved w' s' h
    unfold resolve_obj_go at h
    injection h with h2
    injection h2 with ha hb
    subst ha
    exact frame_eq_refl w
  | cons e2 rest ih =>
    intro w solved w' s' h
    unfold resolve_obj_go at h
    dsimp only at h
    repeat'
      first
        | exact Option.noConfusion h
        | exact ih _ _ _ _ h
        | split at h
    all_goals
      rename_i w2 hcr
      exact frame_eq_trans (compute_reaction_frame _ _ _ _ _ hcr) (ih _ _ _ _ h)

/-- `resolve_obj_collisions` only touches rigid-body velocities and resting
flags. -/
theorem resolve_obj_collisions_frame (w : World) (e1 : Entity) (ents : List Entity)
    (w' : World) (s' : Bool) (h : resolve_obj_collisions w e1 ents = some (w', s')) :
    frame_eq w w' := by
  unfold resolve_obj_collisions at h
  repeat'
    first
      | exact resolve_obj_go_frame _ _ _ _ _ _ _ h
      | (injection h with h2
         injection h2 with ha hb
         subst ha
         exact frame_eq_refl w)
      | split at h

/-- The per-pass entity loop of `resolve_collisions` only touches rigid-body
velocities and resting flags. -/
theorem run_pass_go_frame (ents : List Entity) :
    ∀ (rest : List Entity) (w : World) (solved : Bool) (w' : World) (s' : Bool),
      run_pass_go ents w rest solved = some (w', s') → frame_eq w w' := by
  intro rest
  induction rest with
  | nil =>
    intro w solved w' s' h
    unfold run_pass_go at h
    injection h with h2
    injection h2 with ha hb
    subst ha
    exact frame_eq_refl w
  | cons e rest ih =>
    intro w solved w' s' h
    unfold run_pass_go at h
    split at h
    · exact Option.noConfusion h
    · rename_i w2 s2 hro
      exact frame_eq_trans (resolve_obj_collisions_frame _ _ _ _ _ hro) (ih _ _ _ _ h)

/-- One pass of `resolve_collisions` only touches rigid-body velocities and
resting flags. -/
theorem run_pass_frame (w : World) (ents : List Entity) (w' : World) (s' : Bool)
    (h : run_pass w ents = some (w', s')) : frame_eq w w' :=
  run_pass_go_frame ents ents w true w' s' h

/-- The iteration loop of `resolve_collisions` only touches rigid-body
velocities and resting flags. -/
theorem resolve_iters_frame (ents : List Entity) :
    ∀ (n : Nat) (w : World) (w' : World) (k : Nat),
      resolve_iters w ents n = some (w', k) → frame_eq w w' := by
  intro n
  induction n with
  | zero =>
    intro w w' k h
    unfold resolve_iters at h
    injection h with h2
    injection h2 with ha hb
    subst ha
    exact frame_eq_refl w
  | succ n ih =>
    intro w w' k h
    unfold resolve_iters at h
    split at h
    · exact Option.noConfusion h
    · rename_i w1 solved hrp
      split at h
      · injection h with h2
        injection h2 with ha hb
        subst ha
        exact run_pass_frame _ _ _ _ hrp
      · split at h
        · exact Option.noConfusion h
        · rename_i w2 k2 hri
          injection h with h2
          injection h2 with ha hb
          subst ha
          exact frame_eq_trans (run_pass_frame _ _ _ _ hrp) (ih _ _ _ hri)

/-- `resolve_iters` executes at most `n` passes. -/
theorem resolve_iters_le (ents : List Entity) :
    ∀ (n : Nat) (w w' : World) (k : Nat),
      resolve_iters w ents n = some (w', k) → k ≤ n := by
  intro n
  induction n with
  | zero =>
    intro w w' k h
    unfold resolve_iters at h
    injection h with h2
    injection h2 with ha hb
    subst hb
    exact Nat.le_refl 0
  | succ n ih =>
    intro w w' k h
    unfold resolve_iters at h
    split at h
    · exact Option.noConfusion h
    · rename_i w1 solved hrp
      split at h
      · injection h with h2
        injection h2 with ha hb
        subst hb
        exact Nat.succ_le_succ (Nat.zero_le n)
      · split at h
        · exact Option.noConfusion h
        · rename_i w2 k2 hri
          injection h with h2
          injection h2 with ha hb
          subst hb
          exact Nat.succ_le_succ (ih _ _ _ hri)

/-- `resolve_iters` stops after a single pass as soon as that pass reports
every pair solved. -/
theorem resolve_iters_early (w : World) (ents : List Entity) (n : Nat) (hn : 0 < n)
    (w' : World) (h : run_pass w ents = some (w', true)) :
    resolve_iters w ents n = some (w', 1) := by
  cases n with
  | zero => exact absurd hn (Nat.lt_irrefl 0)
  | succ n =>
    unfold resolve_iters
    rw [h]
    rfl

/-- For every axis-aligned square whose squared side clears the convexity
epsilon, the hull of any permutation of its corners is the counter-clockwise
polygon starting at the lowest-x, lowest-y corner. -/
theorem convex_hull_square (a b s : ℚ) (hs : 0 < s) (hs2 : EPS < s * s)
    (l : List Vec2)
    (hl : l.Perm [⟨a, b⟩, ⟨a + s, b⟩, ⟨a + s, b + s⟩, ⟨a, b + s⟩]) :
    convex_hull l = .ok ⟨[⟨a, b⟩, ⟨a + s, b⟩, ⟨a + s, b + s⟩, ⟨a, b + s⟩]⟩ := by
  have hsle : (0 : ℚ) ≤ s := le_of_lt hs
  have hEPSpos : (0 : ℚ) < EPS := by norm_num [EPS]
  have hsEPS : EPS < s := by
    rw [show EPS = 1/1000000 from rfl] at hs2 ⊢
    by_contra hc
    push_neg at hc
    nlinarith [hs2, hc, hs]
  have hperm2 : ([⟨a + s, b⟩, ⟨a + s, b + s⟩, ⟨a, b + s⟩] : List Vec2).Perm
      [⟨a, b + s⟩, ⟨a + s, b⟩, ⟨a + s, b + s⟩] :=
    List.Perm.trans
      (List.Perm.cons (⟨a + s, b⟩ : Vec2)
        (List.Perm.swap (⟨a, b + s⟩ : Vec2) (⟨a + s, b + s⟩ : Vec2) []))
      (List.Perm.swap (⟨a, b + s⟩ : Vec2) (⟨a + s, b⟩ : Vec2) [⟨a + s, b + s⟩])
  have hpermS : (l : List Vec2).Perm
      [⟨a, b⟩, ⟨a, b + s⟩, ⟨a + s, b⟩, ⟨a + s, b + s⟩] :=
    hl.trans (List.Perm.cons _ hperm2)
  have hSsorted : List.Sorted vert_le
      [⟨a, b⟩, ⟨a, b + s⟩, ⟨a + s, b⟩, ⟨a + s, b + s⟩] := by
    refine List.Pairwise.cons ?_ (List.Pairwise.cons ?_ (List.Pairwise.cons ?_
      (List.pairwise_singleton _ _)))
    · intro v hv
      simp only [List.mem_cons, List.not_mem_nil, or_false] at hv
      rcases hv with rfl | rfl | rfl
      · exact Or.inr ⟨rfl, show b ≤ b + s by linarith⟩
      · exact Or.inl (show a < a + s by linarith)
      · exact Or.inl (show a < a + s by linarith)
    · intro v hv
      simp only [List.mem_cons, List.not_mem_nil, or_false] at hv
      rcases hv with rfl | rfl
      · exact Or.inl (show a < a + s by linarith)
      · exact Or.inl (show a < a + s by linarith)
    · intro v hv
      simp only [List.mem_cons, List.not_mem_nil, or_false] at hv
      subst hv
      exact Or.inr ⟨rfl, show b ≤ b + s by linarith⟩
  have hS : List.insertionSort vert_le l =
      [⟨a, b⟩, ⟨a, b + s⟩, ⟨a + s, b⟩, ⟨a + s, b + s⟩] :=
    List.eq_of_perm_of_sorted ((List.perm_insertionSort vert_le l).trans hpermS)
      (List.sorted_insertionSort vert_le l) hSsorted
  have hlen : l.length = 4 := by
    rw [hl.length_eq]
    rfl
  have hss : (0 : ℚ) < s * s := mul_pos hs hs
  have hssn : ¬(s * s ≤ 0) := not_le.mpr hss
  have hsEPSn : ¬(s < EPS) := not_lt.mpr (le_of_lt hsEPS)
  have habs : |s| = s := abs_of_pos hs
  unfold convex_hull
  rw [if_neg (by simp [hlen])]
  dsimp only
  rw [hS]
  norm_num [walk, pop_chain, Vec2.signed_area, Vec2.cross, Vec2.sub,
    Polygon.new, polygonChecks, noDupVerts, convexOk, hull_to_moved,
    List.range_succ, hs, hsle, hss, hssn, hsEPSn, habs, hs2, EPS]
  rw [if_pos (⟨le_of_lt (show (1 : ℚ)/1000000 < s from hsEPS),
    show (1 : ℚ)/1000000 < s * s from hs2⟩ :
    (1 : ℚ)/1000000 ≤ s ∧ (1 : ℚ)/1000000 < s * s)]

/-! ### Theorems -/

/-- C2 (amended): for rectangle-like swept shapes — `Unmoved` rectangles and
`AxisRect`s, whose SAT candidate axes are exactly the two world axes — a
narrow-phase hit implies the broad-phase test passes.  (For general shapes the
candidate-axis set need not contain the world axes and the implication fails,
see the counterexample.) -/
theorem check_sat_rect_implies_hitboxes
    (s1 s2 : SweptShape) (r1 r2 : Rect) (p1 p2 : Vec2) (n : Vec2)
    (h1 : s1 = .unmoved (.rect r1) p1 ∨ s1 = .axisRect r1 p1)
    (h2 : s2 = .unmoved (.rect r2) p2 ∨ s2 = .axisRect r2 p2)
    (hw1 : 0 < r1.width) (hh1 : 0 < r1.height) (hw2 : 0 < r2.width) (hh2 : 0 < r2.height)
    (hsat : check_sat s1 s2 = some (some n)) :
    check_hitboxes s1.hitbox s2.hitbox = true := by
  rcases h1 with rfl | rfl <;> rcases h2 with rfl | rfl <;>
  · simp only [check_sat, add_axes, remove_duplicate_axes_eq, centroid,
      List.cons_append, List.nil_append] at hsat
    have hx := sat_loop_no_separation _ _ _ _ hsat ⟨1, 0⟩ (by simp)
      (project_rect r1 p1 ⟨1, 0⟩) (project_rect r2 p2 ⟨1, 0⟩) rfl rfl
    have hy := sat_loop_no_separation _ _ _ _ hsat ⟨0, 1⟩ (by simp)
      (project_rect r1 p1 ⟨0, 1⟩) (project_rect r2 p2 ⟨0, 1⟩) rfl rfl
    rw [project_rect_horiz r1 p1 (le_of_lt hw1),
      project_rect_horiz r2 p2 (le_of_lt hw2)] at hx
    rw [project_rect_vert r1 p1 (le_of_lt hh1),
      project_rect_vert r2 p2 (le_of_lt hh2)] at hy
    simp only at hx hy
    push_neg at hx hy
    simp only [SweptShape.hitbox, Shape.hitbox, Rect.hitbox, HitBox.add_pos,
      check_hitboxes, Bool.not_eq_true', Bool.or_eq_false_iff, decide_eq_false_iff_not,
      not_lt]
    refine ⟨⟨⟨?_, ?_⟩, ?_⟩, ?_⟩ <;> linarith [hx.1, hx.2, hy.1, hy.2]

/-- C3: the `continue` inside `remove_duplicate_axes` only advances the inner
comparison loop, so the push is never skipped and the function removes
nothing: on the input `[(1,0), (1,0)]` both copies are kept even though their
dot product magnitude is `1 ≥ 1 − EPS`.  This contradicts the function's own
name and its call-site comment ("remove duplicates to avoid more axis
checks"). -/
theorem remove_duplicate_axes_keeps_duplicates :
    remove_duplicate_axes [⟨1, 0⟩, ⟨1, 0⟩] = [⟨1, 0⟩, ⟨1, 0⟩] ∧
      1 - EPS ≤ |Vec2.dot ⟨1, 0⟩ ⟨1, 0⟩| := by
  refine ⟨remove_duplicate_axes_eq _, ?_⟩
  norm_num [Vec2.dot, EPS]

/-- C1 (amended): the closing-velocity early return compares against `+EPS`,
not `−EPS`: whenever the relative velocity of entity 2 with respect to
entity 1 along the contact normal is at least `EPS`, `compute_reaction`
applies no impulse and every entity's velocity is exactly unchanged (only
resting flags may change). -/
theorem compute_reaction_no_closing_no_impulse
    (w : World) (e1 e2 : Entity) (normal : Vec2) (s1 s2 : Surface) (rb1 : RigidBody)
    (hs1 : w.surface.get e1 = some s1) (hs2 : w.surface.get e2 = some s2)
    (hrb1 : w.rigid_body.get e1 = some rb1)
    (hsep : EPS ≤ (Vec2.sub
        (match w.rigid_body.get e2 with
          | some rb2 => rb2.vel
          | none => Vec2.new 0 0) rb1.vel).dot normal) :
    ∃ w', compute_reaction w e1 e2 normal = some w' ∧
      ∀ e, (w'.rigid_body.get e).map (fun rb => rb.vel) =
        (w.rigid_body.get e).map (fun rb => rb.vel) := by
  unfold compute_reaction
  set w0 := update_rest_flags w e1 e2 normal with hw0
  dsimp only
  have hvel : ∀ e, (w0.rigid_body.get e).map (fun rb => rb.vel) =
      (w.rigid_body.get e).map (fun rb => rb.vel) := fun e => by
    rw [hw0]
    exact update_rest_flags_vel w e1 e2 normal e
  have hsurf : w0.surface = w.surface := by
    rw [hw0]
    exact update_rest_flags_surface w e1 e2 normal
  obtain ⟨rb1', hrb1', hv1⟩ : ∃ rb1', w0.rigid_body.get e1 = some rb1' ∧
      rb1'.vel = rb1.vel := by
    have h := hvel e1
    rw [hrb1] at h
    cases hx : w0.rigid_body.get e1 with
    | none => rw [hx] at h; simp at h
    | some rb => rw [hx] at h; simp at h; exact ⟨rb, rfl, h⟩
  rw [hsurf, hs1, hs2, hrb1']
  cases hx2 : w0.rigid_body.get e2 with
  | none =>
    have h2 := hvel e2
    rw [hx2] at h2
    have hw2 : w.rigid_body.get e2 = none := by
      cases hy : w.rigid_body.get e2 with
      | none => rfl
      | some rb => rw [hy] at h2; simp at h2
    rw [hw2] at hsep
    dsimp only
    rw [if_pos (by rw [hv1]; exact hsep)]
    exact ⟨w0, rfl, hvel⟩
  | some rb2' =>
    have h2 := hvel e2
    rw [hx2] at h2
    obtain ⟨rb2, hrb2, hv2⟩ : ∃ rb2, w.rigid_body.get e2 = some rb2 ∧
        rb2.vel = rb2'.vel := by
      cases hy : w.rigid_body.get e2 with
      | none => rw [hy] at h2; simp at h2
      | some rb => rw [hy] at h2; simp at h2; exact ⟨rb, rfl, h2.symm⟩
    rw [hrb2] at hsep
    dsimp only
    rw [if_pos (by rw [hv1, ← hv2]; exact hsep)]
    exact ⟨w0, rfl, hvel⟩

/-- C1 witness: two unit-mass entities closing at relative normal velocity 2
(≥ EPS), so the early return fires and velocities stay `(−1,0)` and `(1,0)`. -/
theorem compute_reaction_no_closing_no_impulse_witness :
    ∃ w', compute_reaction (head_on_world (-1)) 0 1 ⟨1, 0⟩ = some w' ∧
      ∀ e, (w'.rigid_body.get e).map (fun rb => rb.vel) =
        ((head_on_world (-1)).rigid_body.get e).map (fun rb => rb.vel) := by
  refine compute_reaction_no_closing_no_impulse (head_on_world (-1)) 0 1 ⟨1, 0⟩
    ⟨1, 0, 0⟩ ⟨1, 0, 0⟩ ⟨⟨-1, 0⟩, ⟨0, 0⟩, 1, 1, false⟩ rfl rfl rfl ?_
  norm_num [head_on_world, SparseSet.get, List.getD, Vec2.sub, Vec2.dot, EPS]

set_option maxHeartbeats 2000000 in
/-- C1 counterexample: both entities move with velocity `(0, 1/2)`, so the
relative velocity along the horizontal normal is `0 ≥ −EPS` and the claim
demands unchanged velocities; but the code only returns early for values
`≥ +EPS`, proceeds with a zero normal impulse, and its y-velocity rounding
then snaps entity 0's velocity from `(0, 1/2)` to `(0, 0)`. -/
theorem compute_reaction_minus_eps_counterexample :
    (-(EPS : ℚ)) ≤ (Vec2.sub ⟨0, 1/2⟩ ⟨0, 1/2⟩).dot ⟨1, 0⟩ ∧
    (resting_pair_world.rigid_body.get 0).map (fun rb => rb.vel) = some ⟨0, 1/2⟩ ∧
    (compute_reaction resting_pair_world 0 1 ⟨1, 0⟩).map
        (fun w' => (w'.rigid_body.get 0).map (fun rb => rb.vel)) =
      some (some ⟨0, 0⟩) := by
  refine ⟨by norm_num [Vec2.sub, Vec2.dot, EPS], by norm_num [resting_pair_world,
    SparseSet.get, List.getD], ?_⟩
  norm_num [compute_reaction, update_rest_flags, apply_impulse_1, apply_impulse_2,
    apply_friction_1, apply_friction_2, friction_phase, impulse_phase,
    resting_pair_world, SparseSet.get,
    SparseSet.update, List.getD, Vec2.sub, Vec2.add, Vec2.dot, Vec2.scale, Vec2.new,
    Vec2.mag, Vec2.square_mag, pow2, rat_sqrt_zero, EPS]
  norm_num [abs_of_nonneg]

/-- C4: two unit-mass entities with restitution 1 and zero friction closing
head-on with velocities `(v,0)` and `(−v,0)` swap velocities in one
`compute_reaction` call with normal `(1,0)`. -/
theorem compute_reaction_head_on_swap (v : ℚ) (hv : 0 ≤ v) :
    (compute_reaction (head_on_world v) 0 1 ⟨1, 0⟩).map
        (fun w' => ((w'.rigid_body.get 0).map fun rb => rb.vel,
                    (w'.rigid_body.get 1).map fun rb => rb.vel)) =
      some (some ⟨-v, 0⟩, some ⟨v, 0⟩) := by
  norm_num [compute_reaction, update_rest_flags, apply_impulse_1, apply_impulse_2,
    apply_friction_1, apply_friction_2, friction_phase, impulse_phase,
    head_on_world, SparseSet.get,
    SparseSet.update, List.getD, Vec2.sub, Vec2.add, Vec2.dot, Vec2.scale, Vec2.new,
    Vec2.mag, Vec2.square_mag, pow2, rat_sqrt_zero, EPS]
  rw [if_neg (by linarith)]
  simp

/-- C4 witness: the swap at the concrete speed `v = 3`. -/
theorem compute_reaction_head_on_swap_witness :
    (compute_reaction (head_on_world 3) 0 1 ⟨1, 0⟩).map
        (fun w' => ((w'.rigid_body.get 0).map fun rb => rb.vel,
                    (w'.rigid_body.get 1).map fun rb => rb.vel)) =
      some (some ⟨-3, 0⟩, some ⟨3, 0⟩) :=
  compute_reaction_head_on_swap 3 (by norm_num)

/-- C10 (amended): `generate_swept_shape` is not total on valid non-circle
shapes.  When the combined start/end vertex set is degenerate — a segment
translated along its own direction gives four collinear points, whose hull
collapses below the 4 vertices polygon validation demands — the call aborts
(`none`).  When the hull is a valid strictly convex quadrilateral — e.g. a
segment translated perpendicular to itself — the call returns the `Moved`
hull as the claim describes. -/
theorem generate_swept_shape_hull_degeneracy :
    (∀ t : ℚ, 1 < t →
      generate_swept_shape ⟨0, 0⟩ ⟨t, t⟩ (.segment ⟨⟨0, 0⟩, ⟨1, 1⟩⟩) = none) ∧
    (∀ d : ℚ, EPS < d →
      generate_swept_shape ⟨0, 0⟩ ⟨0, d⟩ (.segment ⟨⟨0, 0⟩, ⟨1, 0⟩⟩) =
        some (.moved ⟨[⟨0, 0⟩, ⟨1, 0⟩, ⟨1, d⟩, ⟨0, d⟩]⟩)) :=
  ⟨gss_segment_along_direction_panics, gss_segment_perp_translation⟩

/-- C10 witness: the degenerate sweep at `t = 3` aborts and the perpendicular
sweep at `d = 1` returns the parallelogram hull. -/
theorem generate_swept_shape_hull_degeneracy_witness :
    generate_swept_shape ⟨0, 0⟩ ⟨3, 3⟩ (.segment ⟨⟨0, 0⟩, ⟨1, 1⟩⟩) = none ∧
    generate_swept_shape ⟨0, 0⟩ ⟨0, 1⟩ (.segment ⟨⟨0, 0⟩, ⟨1, 0⟩⟩) =
      some (.moved ⟨[⟨0, 0⟩, ⟨1, 0⟩, ⟨1, 1⟩, ⟨0, 1⟩]⟩) :=
  ⟨generate_swept_shape_hull_degeneracy.1 3 (by norm_num),
   generate_swept_shape_hull_degeneracy.2 1 (by norm_num [EPS])⟩

/-- C10 counterexample: sweeping the unit-diagonal segment from `(0,0)` to
`(2,2)` (motion along its own direction, squared displacement 8 far above
epsilon squared) aborts instead of returning a `Moved` swept shape. -/
theorem generate_swept_shape_panics_counterexample :
    generate_swept_shape ⟨0, 0⟩ ⟨2, 2⟩ (.segment ⟨⟨0, 0⟩, ⟨1, 1⟩⟩) = none :=
  gss_segment_along_direction_panics 2 (by norm_num)

/-- C5 (amended): for every axis-aligned square whose side `s` satisfies
`s² > EPS` (the convexity margin polygon validation demands), `convex_hull` of
its 4 corners in any input order returns exactly those corners counter-
clockwise from the lowest-x (tie lowest-y) corner; and every input of fewer
than 3 points returns the `TooFewVertices` error.  For smaller squares the
hull panics inside polygon validation instead (see the counterexample). -/
theorem convex_hull_square_spec :
    (∀ (a b s : ℚ), 0 < s → EPS < s * s → ∀ l : List Vec2,
      l.Perm [⟨a, b⟩, ⟨a + s, b⟩, ⟨a + s, b + s⟩, ⟨a, b + s⟩] →
      convex_hull l = .ok ⟨[⟨a, b⟩, ⟨a + s, b⟩, ⟨a + s, b + s⟩, ⟨a, b + s⟩]⟩) ∧
    (∀ l : List Vec2, l.length < 3 →
      convex_hull l = .err (.tooFewVertices l.length)) := by
  refine ⟨fun a b s hs hs2 l hl => convex_hull_square a b s hs hs2 l hl,
    fun l hl => ?_⟩
  unfold convex_hull
  rw [if_pos hl]

/-- C5 witness: the unit square at the origin, and a 1-point input. -/
theorem convex_hull_square_spec_witness :
    convex_hull [⟨0, 0⟩, ⟨0 + 1, 0⟩, ⟨0 + 1, 0 + 1⟩, ⟨0, 0 + 1⟩] =
      .ok ⟨[⟨0, 0⟩, ⟨0 + 1, 0⟩, ⟨0 + 1, 0 + 1⟩, ⟨0, 0 + 1⟩]⟩ ∧
    convex_hull [⟨5, 5⟩] = .err (.tooFewVertices 1) := by
  refine ⟨convex_hull_square_spec.1 0 0 1 (by norm_num) (by norm_num [EPS]) _
    (List.Perm.refl _), ?_⟩
  have h := convex_hull_square_spec.2 [⟨5, 5⟩] (by norm_num)
  simpa using h

/-- C5 counterexample: the square of side `1/1000` has corner-triple cross
products of exactly `EPS`, which the strict `cross > EPS` convexity check
rejects, so `convex_hull` panics inside polygon validation instead of
returning the 4 corners. -/
theorem convex_hull_tiny_square_counterexample :
    convex_hull [⟨0, 0⟩, ⟨1/1000, 0⟩, ⟨1/1000, 1/1000⟩, ⟨0, 1/1000⟩] = .panic := by
  norm_num [convex_hull, List.insertionSort, List.orderedInsert, vert_le, walk,
    pop_chain, Vec2.signed_area, Vec2.cross, Vec2.sub, Polygon.new, polygonChecks,
    noDupVerts, convexOk, List.range_succ, EPS]

/-- C2 witness: two concretely overlapping unit rectangles. -/
theorem check_sat_rect_implies_hitboxes_witness :
    check_hitboxes (SweptShape.hitbox (.unmoved (.rect ⟨1, 1⟩) ⟨0, 0⟩))
      (SweptShape.hitbox (.axisRect ⟨1, 1⟩ ⟨1/2, 0⟩)) = true := by
  refine check_sat_rect_implies_hitboxes _ _ ⟨1, 1⟩ ⟨1, 1⟩ ⟨0, 0⟩ ⟨1/2, 0⟩ ?_
    (Or.inl rfl) (Or.inr rfl) (by norm_num) (by norm_num) (by norm_num) (by norm_num) ?_
  · exact ⟨1, 0⟩
  · norm_num [check_sat, add_axes, remove_duplicate_axes, centroid, sat_loop,
      project_shape, project_rect, Vec2.dot, Vec2.add_scalar, Vec2.add, Vec2.sub,
      Vec2.scale, Vec2.neg, EPS]

/-- C2 counterexample: two horizontal unit segments far apart on the same
line.  The only SAT candidate axis is the shared vertical normal, on which
their projections coincide, so `check_sat` reports a collision even though the
broad-phase hitbox test rejects the pair: the claim is false for general swept
shapes. -/
theorem check_sat_without_hitboxes_counterexample :
    check_sat (.unmoved (.segment ⟨⟨0, 0⟩, ⟨1, 0⟩⟩) ⟨0, 0⟩)
        (.unmoved (.segment ⟨⟨0, 0⟩, ⟨1, 0⟩⟩) ⟨100, 0⟩) = some (some ⟨0, 1⟩) ∧
      check_hitboxes
        (SweptShape.hitbox (.unmoved (.segment ⟨⟨0, 0⟩, ⟨1, 0⟩⟩) ⟨0, 0⟩))
        (SweptShape.hitbox (.unmoved (.segment ⟨⟨0, 0⟩, ⟨1, 0⟩⟩) ⟨100, 0⟩)) = false := by
  constructor
  · norm_num [check_sat, add_axes, remove_duplicate_axes, centroid, sat_loop,
      project_shape, Vec2.dot, Vec2.add, Vec2.sub, Vec2.scale, Vec2.neg,
      Vec2.perp_ccw, Vec2.norm, Vec2.mag, Vec2.square_mag, pow2, EPS, EPS_SQR,
      sumVerts]
  · norm_num [check_hitboxes, SweptShape.hitbox, Shape.hitbox, Segment.hitbox,
      HitBox.add_pos, EPS]

/-- C8: `SparseSet::insert` fails with the typed `AlreadyExistingComponent`
error exactly when the entity already has a component in the store (leaving the
store unchanged), and otherwise adds the component; `SparseSet::set` fails with
the typed `MissingComponent` error exactly when the entity has none (leaving
the store unchanged), and otherwise replaces it.  `s.WF` is the sparse-index
invariant every store built through the API maintains. -/
theorem sparse_insert_set_error_spec {T : Type} (s : SparseSet T) (e : Entity) (c : T)
    (hwf : s.WF) :
    ((s.insert e c).2 = some (ComponentError.alreadyExistingComponent e) ↔
      (s.get e).isSome = true) ∧
    ((s.get e).isSome = true → (s.insert e c).1 = s) ∧
    ((s.get e).isSome = false →
      (s.insert e c).2 = none ∧ (s.insert e c).1.get e = some c) ∧
    ((s.set e c).2 = some (ComponentError.missingComponent e) ↔ s.get e = none) ∧
    (s.get e = none → (s.set e c).1 = s) ∧
    ((s.get e).isSome = true →
      (s.set e c).2 = none ∧ (s.set e c).1.get e = some c) := by
  have hiff := s.get_isSome_iff hwf e
  have hniff := s.get_eq_none_iff hwf e
  have hlen : e < (if s.sparse.length ≤ e then
      s.sparse ++ List.replicate (e + 1 - s.sparse.length) none else s.sparse).length := by
    rcases Nat.lt_or_ge e s.sparse.length with h | h
    · rw [if_neg (Nat.not_le.mpr h)]
      exact h
    · rw [if_pos h, List.length_append, List.length_replicate]
      exact Nat.lt_of_lt_of_le (Nat.lt_succ_self e) (by omega)
  refine ⟨?_, ?_, ?_, ?_, ?_, ?_⟩
  · simp only [SparseSet.insert, sparse_resize_getD]
    rw [hiff]
    cases hs : (s.sparse.getD e none).isSome <;> simp [hs]
  · intro hg
    rw [hiff] at hg
    have he : e < s.sparse.length := getD_lt_length_of_isSome hg
    have hsz : (if s.sparse.length ≤ e then
        s.sparse ++ List.replicate (e + 1 - s.sparse.length) none else s.sparse) = s.sparse :=
      if_neg (Nat.not_le.mpr he)
    simp only [SparseSet.insert, hsz]
    rw [if_pos hg]
  · intro hg
    rw [hiff] at hg
    simp only [SparseSet.insert, sparse_resize_getD]
    rw [hg, if_neg Bool.false_ne_true]
    refine ⟨rfl, ?_⟩
    simp only [SparseSet.get]
    rw [List.getD_eq_getD_get?, List.get?_eq_getElem?, List.getElem?_set_eq_of_lt _ hlen]
    simp [List.get?_concat_length]
  · cases hs : s.sparse.getD e none with
    | none =>
      simp only [SparseSet.set, hs]
      exact ⟨fun _ => hniff.mpr hs, fun _ => trivial⟩
    | some index =>
      simp only [SparseSet.set, hs]
      refine ⟨fun h => by simp at h, fun h => ?_⟩
      rw [hniff] at h
      rw [h] at hs
      exact Option.noConfusion hs
  · intro hg
    have hs := hniff.mp hg
    simp only [SparseSet.set, hs]
  · intro hg
    rw [hiff] at hg
    cases hs : s.sparse.getD e none with
    | none => rw [hs] at hg; simp at hg
    | some index =>
      have hidx := hwf e index hs
      simp only [SparseSet.set, hs]
      refine ⟨trivial, ?_⟩
      simp only [SparseSet.get]
      rw [hs]
      simp [List.get?_eq_getElem?, List.getElem?_set_eq_of_lt c hidx]

/-- C8 witness: a concrete one-entry store where entity 0 already has a
component, exercising both error laws. -/
theorem sparse_insert_set_error_spec_witness :
    (((⟨[5], [0], [some 0]⟩ : SparseSet ℕ).insert 0 7).2 =
        some (ComponentError.alreadyExistingComponent 0)) ∧
      ((((⟨[5], [0], [some 0]⟩ : SparseSet ℕ).set 0 7).1.get 0) = some 7) := by
  have hwf : (⟨[5], [0], [some 0]⟩ : SparseSet ℕ).WF := by
    intro e index h
    match e with
    | 0 =>
      simp at h
      show index < 1
      omega
    | n + 1 => simp [List.getD] at h
  refine ⟨?_, ?_⟩
  · exact (sparse_insert_set_error_spec (⟨[5], [0], [some 0]⟩ : SparseSet ℕ) 0 7 hwf).1.mpr
      (by decide)
  · exact ((sparse_insert_set_error_spec (⟨[5], [0], [some 0]⟩ : SparseSet ℕ) 0 7
      hwf).2.2.2.2.2 (by decide)).2

/-- C7: `resolve_collisions` mutates only rigid-body linear velocities and
resting flags — the transform, surface and shape stores come back unchanged,
and every entity's accumulated force, mass and reciprocal mass read from the
rigid-body store are identical before and after the call. -/
theorem resolve_collisions_frame_spec (w : World) (sort : Bool) (iters : Nat)
    (w' : World) (h : resolve_collisions w sort iters = some w') :
    w'.transform = w.transform ∧ w'.surface = w.surface ∧ w'.shape = w.shape ∧
    ∀ e : Entity,
      ((w'.rigid_body.get e).map fun rb => (rb.force, rb.mass, rb.inv_mass)) =
        (w.rigid_body.get e).map fun rb => (rb.force, rb.mass, rb.inv_mass) := by
  have hf : frame_eq w w' := by
    unfold resolve_collisions at h
    cases hr : resolve_iters w (collision_ents w sort) iters with
    | none =>
      rw [hr] at h
      exact Option.noConfusion h
    | some r =>
      rw [hr] at h
      injection h with h2
      rw [← h2]
      exact resolve_iters_frame _ iters w r.1 r.2 hr
  exact ⟨hf.1, hf.2.1, hf.2.2.1, fun e => frame_eq_get_map hf e⟩

/-- C7 witness: the empty world resolves to itself, with every frame component
unchanged. -/
theorem resolve_collisions_frame_spec_witness :
    resolve_collisions empty_world true 3 = some empty_world ∧
    (empty_world.transform = empty_world.transform ∧
     empty_world.surface = empty_world.surface ∧
     empty_world.shape = empty_world.shape ∧
     ∀ e : Entity,
       ((empty_world.rigid_body.get e).map fun rb => (rb.force, rb.mass, rb.inv_mass)) =
         (empty_world.rigid_body.get e).map fun rb => (rb.force, rb.mass, rb.inv_mass)) :=
  ⟨rfl, resolve_collisions_frame_spec empty_world true 3 empty_world rfl⟩

/-- C6: the iteration loop of `resolve_collisions` executes at most `iters`
passes over the entity list, and as soon as one full pass reports every pair
solved it stops right there: with a positive budget it performs exactly that
one pass, and `resolve_collisions` returns that pass's world. -/
theorem resolve_collisions_pass_budget (w : World) (sort : Bool) (iters : Nat) :
    (∀ (w' : World) (k : Nat),
        resolve_iters w (collision_ents w sort) iters = some (w', k) → k ≤ iters) ∧
    (∀ w' : World, 0 < iters → run_pass w (collision_ents w sort) = some (w', true) →
        resolve_iters w (collision_ents w sort) iters = some (w', 1) ∧
        resolve_collisions w sort iters = some w') := by
  constructor
  · intro w' k h
    exact resolve_iters_le _ _ _ _ _ h
  · intro w' hn hp
    have he := resolve_iters_early w (collision_ents w sort) iters hn w' hp
    refine ⟨he, ?_⟩
    unfold resolve_collisions
    rw [he]
    rfl

/-- C6 witness: on the empty world the single pass is already solved, so a
budget of 5 stops after exactly one pass. -/
theorem resolve_collisions_pass_budget_witness :
    resolve_iters empty_world (collision_ents empty_world true) 5 =
      some (empty_world, 1) ∧
    resolve_collisions empty_world true 5 = some empty_world :=
  (resolve_collisions_pass_budget empty_world true 5).2 empty_world (by decide) rfl

/-- C9: the solver is deterministic — from identical snapshots of the four
component stores, with the same sort flag and iteration budget, two runs of
`resolve_collisions` return identical results. -/
theorem resolve_collisions_deterministic (w1 w2 : World) (sort : Bool) (iters : Nat)
    (ht : w1.transform = w2.transform) (hr : w1.rigid_body = w2.rigid_body)
    (hs : w1.surface = w2.surface) (hsh : w1.shape = w2.shape) :
    resolve_collisions w1 sort iters = resolve_collisions w2 sort iters := by
  have hw : w1 = w2 := by
    cases w1
    cases w2
    dsimp only at ht hr hs hsh
    subst ht
    subst hr
    subst hs
    subst hsh
    rfl
  rw [hw]

/-- C9 witness: two runs from the (equal) empty snapshots coincide. -/
theorem resolve_collisions_deterministic_witness :
    resolve_collisions empty_world true 2 = resolve_collisions empty_world true 2 :=
  resolve_collisions_deterministic empty_world empty_world true 2 rfl rfl rfl rfl

end Lithium
